import Mathlib

/-
Shallow embedding of src/script.js (front-end behaviors: validation regexes,
progress-bar counting, marquee offset loop, FAQ accordion, scroll reveal,
debounced input validation, mobile-menu wiring, member-photo handoff).
Definitions are transcribed from the JavaScript source; theorems settle the
specification's claims about them.
-/

/-! ## Characters and regex character classes -/

/-- The regex class `[0-9]` (`\d`). -/
def isAsciiDigit (c : Char) : Bool := decide ('0' ≤ c) && decide (c ≤ '9')

/-- The regex class `[1-9]`. -/
def isNonzeroDigit (c : Char) : Bool := decide ('1' ≤ c) && decide (c ≤ '9')

theorem isNonzeroDigit_isAsciiDigit {c : Char} (h : isNonzeroDigit c = true) :
    isAsciiDigit c = true := by
  simp only [isNonzeroDigit, isAsciiDigit, Bool.and_eq_true, decide_eq_true_eq] at *
  exact ⟨le_trans (by decide) h.1, h.2⟩

/-! ## The phone rule: regex `^\+?[1-9]\d{1,14}$`
(CONFIG.validation.patterns.phone, src/script.js line 41, and the contact
form submit handler, line 638). -/

/-- Consume the optional leading plus of `\+?`. Since `+` is not a digit,
matching the regex with or without consuming a leading `+` is equivalent to
stripping one leading `+` and matching the rest. -/
def stripPlus (l : List Char) : List Char :=
  match l with
  | [] => []
  | c :: rest => if c = '+' then rest else c :: rest

/-- The `[1-9]\d{1,14}` core applied after the optional plus: a nonzero first
digit followed by 1 to 14 further digits, end of string. -/
def phoneCore (l : List Char) : Bool :=
  match l with
  | [] => false
  | c :: rest =>
    isNonzeroDigit c && rest.all isAsciiDigit &&
      decide (1 ≤ rest.length) && decide (rest.length ≤ 14)

/-- `regex.test` for the phone pattern `^\+?[1-9]\d{1,14}$`. -/
def phoneMatches (s : String) : Bool := phoneCore (stripPlus s.data)

/-- The spec's wording of the phone contract: an optional leading plus sign,
then digits only, first digit 1-9, total digit length 2 to 15. -/
def phoneShape (l : List Char) : Prop :=
  ∃ digits : List Char,
    (l = digits ∨ l = '+' :: digits) ∧
    digits.all isAsciiDigit = true ∧
    (∃ c rest, digits = c :: rest ∧ isNonzeroDigit c = true) ∧
    2 ≤ digits.length ∧ digits.length ≤ 15

theorem phoneCore_iff (l : List Char) :
    phoneCore l = true ↔
      (l.all isAsciiDigit = true ∧
        (∃ c rest, l = c :: rest ∧ isNonzeroDigit c = true) ∧
        2 ≤ l.length ∧ l.length ≤ 15) := by
  cases l with
  | nil => simp [phoneCore]
  | cons c rest =>
    simp only [phoneCore, Bool.and_eq_true, decide_eq_true_eq, List.all_cons,
      List.length_cons]
    constructor
    · rintro ⟨⟨⟨h1, h2⟩, h3⟩, h4⟩
      exact ⟨⟨isNonzeroDigit_isAsciiDigit h1, h2⟩, ⟨c, rest, rfl, h1⟩,
        by omega, by omega⟩
    · rintro ⟨⟨_, h2⟩, ⟨c', rest', heq, h1⟩, h3, h4⟩
      injection heq with hc hr
      subst hc; subst hr
      exact ⟨⟨⟨h1, h2⟩, by omega⟩, by omega⟩

theorem plus_not_digit : isAsciiDigit '+' = false := by decide

theorem phoneMatches_iff_phoneShape (s : String) :
    phoneMatches s = true ↔ phoneShape s.data := by
  unfold phoneMatches phoneShape
  cases hl : s.data with
  | nil =>
    simp only [stripPlus]
    rw [phoneCore_iff]
    constructor
    · rintro ⟨_, ⟨c, rest, h, _⟩, _, _⟩; cases h
    · rintro ⟨digits, hd, _, ⟨c, rest, rfl, _⟩, _, _⟩
      rcases hd with h | h <;> cases h
  | cons c rest =>
    by_cases hc : c = '+'
    · subst hc
      have hstrip : stripPlus ('+' :: rest) = rest := by simp [stripPlus]
      rw [hstrip, phoneCore_iff]
      constructor
      · rintro ⟨h1, h2, h3, h4⟩
        exact ⟨rest, Or.inr rfl, h1, h2, h3, h4⟩
      · rintro ⟨digits, hd, h1, ⟨c', r', hdig, hnz⟩, h3, h4⟩
        rcases hd with h | h
        · -- `'+' :: rest = digits` is impossible: digits are all in `[0-9]`.
          subst hdig
          injection h with hc' hr'
          subst hc'
          simp [List.all_cons, plus_not_digit] at h1
        · injection h with hc' hr'
          subst hr'
          exact ⟨h1, ⟨c', r', hdig, hnz⟩, h3, h4⟩
    · have hstrip : stripPlus (c :: rest) = c :: rest := by simp [stripPlus, hc]
      rw [hstrip, phoneCore_iff]
      constructor
      · rintro ⟨h1, h2, h3, h4⟩
        exact ⟨c :: rest, Or.inl rfl, h1, h2, h3, h4⟩
      · rintro ⟨digits, hd, h1, ⟨c', r', hdig, hnz⟩, h3, h4⟩
        rcases hd with h | h
        · subst h
          exact ⟨h1, ⟨c', r', hdig, hnz⟩, h3, h4⟩
        · injection h with hc' hr'
          exact absurd hc' hc

/-- Claim C1 counterexample: the spec's example says the phone input "123"
fails the phone rule, but the regex `^\+?[1-9]\d{1,14}$` accepts it: first
digit 1 is in `[1-9]` and the two following digits satisfy `\d{1,14}`. -/
theorem phone_123_passes_counterexample : phoneMatches "123" = true := by decide

/-- Claim C1 (amended): the input "+14155552671" passes the phone rule, the
input "123" also passes it (the spec's claim that it fails is wrong), and the
phone regex admits exactly the strings with an optional leading plus, first
digit 1-9, and a total digit length of 2 to 15. -/
theorem phone_rule_amended :
    phoneMatches "+14155552671" = true ∧
    phoneMatches "123" = true ∧
    (∀ s : String, phoneMatches s = true ↔ phoneShape s.data) :=
  ⟨by decide, by decide, phoneMatches_iff_phoneShape⟩

/-- Witness for claim C1's amended theorem: the characterization, applied at
the concrete input "+14155552671", which the rule accepts. -/
theorem phone_rule_amended_witness : phoneShape ("+14155552671".data) :=
  (phone_rule_amended.2.2 "+14155552671").mp (by decide)

/-! ## Progress bar counting
Two implementations exist in the source: `ProgressBarController.animateProgressBar`
(src/script.js lines 335-354, a `setInterval` loop) and `animateProgressBars` /
`animateCount` (lines 587-612, a `requestAnimationFrame` loop). -/

/-- JavaScript numbers as far as this code exercises them: `parseInt` either
returns an integer or `NaN`, and every comparison with `NaN` is false. -/
inductive JsNumber where
  | nan : JsNumber
  | int : Int → JsNumber
deriving DecidableEq

/-- The JavaScript comparison `a >= b` (false whenever a side is `NaN`). -/
def jsGe : JsNumber → JsNumber → Bool
  | JsNumber.int a, JsNumber.int b => decide (b ≤ a)
  | _, _ => false

/-- The JavaScript comparison `a > b` (false whenever a side is `NaN`). -/
def jsGt : JsNumber → JsNumber → Bool
  | JsNumber.int a, JsNumber.int b => decide (b < a)
  | _, _ => false

/-- JavaScript whitespace characters recognised by `parseInt` / the regex
class backslash-s (the code points this code could meet). -/
def jsWhitespace (c : Char) : Bool :=
  c = ' ' || c = '\t' || c = '\n' || c = '\r' || c = '\x0b' || c = '\x0c' ||
    c = '\u00A0' || c = '\u2028' || c = '\u2029' || c = '\uFEFF'

/-- Digit run to a natural number, most significant first. -/
def digitsToNat (ds : List Char) : Nat :=
  ds.foldl (fun acc c => acc * 10 + (c.toNat - '0'.toNat)) 0

/-- The longest leading digit run, or `none` when there is no leading digit. -/
def leadingNat (l : List Char) : Option Nat :=
  match l.takeWhile isAsciiDigit with
  | [] => none
  | ds => some (digitsToNat ds)

/-- `parseInt(s)` restricted to radix 10: skip leading whitespace, consume an
optional sign and then the longest digit run; `NaN` when no digit follows. -/
def parseIntJs (s : String) : JsNumber :=
  match s.data.dropWhile jsWhitespace with
  | '-' :: rest =>
    match leadingNat rest with
    | none => JsNumber.nan
    | some n => JsNumber.int (-(n : Int))
  | '+' :: rest =>
    match leadingNat rest with
    | none => JsNumber.nan
    | some n => JsNumber.int (n : Int)
  | l =>
    match leadingNat l with
    | none => JsNumber.nan
    | some n => JsNumber.int (n : Int)

/-- `parseInt(bar.dataset.width)`: a missing `data-width` attribute reads as
`undefined`, which `parseInt` turns into `NaN`. -/
def datasetWidth (attr : Option String) : JsNumber :=
  match attr with
  | none => JsNumber.nan
  | some s => parseIntJs s

/-- `const increment = targetValue > 50 ? 2 : 1` (line 344). -/
def jsIncrement (target : JsNumber) : Int :=
  if jsGt target (JsNumber.int 50) then 2 else 1

/-- State of the `setInterval` counting loop of `animateProgressBar`:
the `count` variable and whether the interval is still scheduled. -/
structure CounterState where
  count : Int
  running : Bool
deriving DecidableEq

/-- One tick of the `setInterval` callback (lines 345-353). Returns the next
state and the value written to `text.textContent` this tick (`none` when the
interval has already been cleared, so no callback runs). -/
def counterTick (target : JsNumber) (s : CounterState) : CounterState × Option JsNumber :=
  if s.running = false then (s, none)
  else if jsGe (JsNumber.int s.count) target then
    ({ s with running := false }, some target)
  else
    ({ s with count := s.count + jsIncrement target }, some (JsNumber.int (s.count + jsIncrement target)))

/-- The interval loop run for `n` ticks from `count = 0` (line 343). -/
def runTicks (target : JsNumber) : Nat → CounterState
  | 0 => { count := 0, running := true }
  | n + 1 => (counterTick target (runTicks target n)).1

/-- `const increment = targetValue > 50 ? 2 : 1` specialised to a
nonnegative-integer target, with which the Nat-valued sequence model of the
interval loop is phrased. -/
def incrementFor (target : Nat) : Nat := if 50 < target then 2 else 1

/-- The sequence of values written to `text.textContent` by the interval loop
of `animateProgressBar`, for an integer target: each tick either stops and
writes the target, or advances `count` by the increment and writes it. -/
def intervalTicks (target count : Nat) : List Nat :=
  if _h : target ≤ count then [target]
  else (count + incrementFor target) :: intervalTicks target (count + incrementFor target)
termination_by target - count
decreasing_by
  have hi : 1 ≤ incrementFor target := by unfold incrementFor; split <;> omega
  omega

/-- The sequence of values written to `text.textContent` by the
`requestAnimationFrame` loop `animateCount` (lines 602-608): write `count`,
then recurse with `count + 1` while `count < target`. -/
def rafTicks (target count : Nat) : List Nat :=
  count :: (if h : count < target then rafTicks target (count + 1) else [])
termination_by target - count

/-- One scroll check of `animateProgressBars` (lines 587-593) for one bar:
bars already carrying the `visible` class are excluded by the selector
`.progress-bar:not(.visible)`; a bar above the threshold is marked visible
and its counting animation is started (counted by `started`). -/
structure BarState where
  visible : Bool
  started : Nat
deriving DecidableEq

def barCheck (threshold top : Int) (b : BarState) : BarState :=
  if b.visible = false ∧ top < threshold then
    { visible := true, started := b.started + 1 }
  else b

theorem counterTick_stopped (target : JsNumber) (s : CounterState)
    (h : s.running = false) : counterTick target s = (s, none) := by
  simp [counterTick, h]

theorem runTicks_succ (target : JsNumber) (n : Nat) :
    runTicks target (n + 1) = (counterTick target (runTicks target n)).1 := rfl

theorem runTicks_running_pred {target : JsNumber} {n : Nat}
    (h : (runTicks target (n + 1)).running = true) :
    (runTicks target n).running = true := by
  by_contra hc
  rw [Bool.not_eq_true] at hc
  rw [runTicks_succ, counterTick_stopped target _ hc] at h
  rw [hc] at h
  cases h

theorem jsGe_nan (a : JsNumber) : jsGe a JsNumber.nan = false := by
  cases a <;> rfl

theorem jsIncrement_nan : jsIncrement JsNumber.nan = 1 := rfl

/-- With a `NaN` target, `count >= targetValue` is always false and
`targetValue > 50` is also false, so every tick takes the increment branch
with step 1 and the interval is never cleared. -/
theorem runTicks_nan (n : Nat) :
    (runTicks JsNumber.nan n).running = true ∧
    (runTicks JsNumber.nan n).count = (n : Int) := by
  induction n with
  | zero => exact ⟨rfl, rfl⟩
  | succ n ih =>
    obtain ⟨h1, h2⟩ := ih
    rw [runTicks_succ]
    simp only [counterTick, h1, jsGe_nan, jsIncrement_nan, Bool.true_eq_false,
      Bool.false_eq_true, if_false]
    refine ⟨trivial, ?_⟩
    show (runTicks JsNumber.nan n).count + 1 = ((n + 1 : Nat) : Int)
    rw [h2]
    push_cast
    omega

theorem runTicks_int_step {t : Int} {n : Nat}
    (h : (runTicks (JsNumber.int t) (n + 1)).running = true) :
    (runTicks (JsNumber.int t) n).count < t ∧
    (runTicks (JsNumber.int t) n).count + 1 ≤ (runTicks (JsNumber.int t) (n + 1)).count := by
  have hr := runTicks_running_pred h
  by_cases hge : t ≤ (runTicks (JsNumber.int t) n).count
  · exfalso
    rw [runTicks_succ] at h
    simp [counterTick, hr, jsGe, hge] at h
  · refine ⟨by omega, ?_⟩
    rw [runTicks_succ]
    simp only [counterTick, hr, Bool.true_eq_false, if_false, jsGe,
      decide_eq_true_eq, if_neg hge, jsIncrement, jsGt]
    split <;> simp

theorem runTicks_int_count_ge {t : Int} (n : Nat)
    (h : (runTicks (JsNumber.int t) n).running = true) :
    (n : Int) ≤ (runTicks (JsNumber.int t) n).count := by
  induction n with
  | zero => simp [runTicks]
  | succ n ih =>
    have hr := runTicks_running_pred h
    have hstep := runTicks_int_step h
    have := ih hr
    push_cast
    omega

/-- With an integer target, the interval loop stops within `t.toNat + 1`
ticks: each tick advances the counter by at least 1, so by that tick the
stop condition `count >= targetValue` has been reached. -/
theorem runTicks_int_terminates (t : Int) :
    (runTicks (JsNumber.int t) (t.toNat + 1)).running = false := by
  by_contra hc
  rw [Bool.not_eq_false] at hc
  have hstep := runTicks_int_step hc
  have hge := runTicks_int_count_ge t.toNat (runTicks_running_pred hc)
  have hle : t ≤ (t.toNat : Int) := Int.self_le_toNat t
  omega

/-- Claim C6: when `data-width` is missing (or unparsable), `parseInt` yields
`NaN`, the stop condition `count >= targetValue` of the interval loop is never
satisfied, the interval is never cleared and the counter keeps advancing
without bound; with an integer target the loop does stop. -/
theorem progress_nan_nontermination :
    datasetWidth none = JsNumber.nan ∧
    (∀ n : Nat, (runTicks JsNumber.nan n).running = true ∧
      (runTicks JsNumber.nan n).count = (n : Int)) ∧
    (∀ t : Int, (runTicks (JsNumber.int t) (t.toNat + 1)).running = false) :=
  ⟨rfl, runTicks_nan, runTicks_int_terminates⟩

/-- Witness for claim C6's theorem: after 100 ticks on a `NaN` target the
interval still runs with counter 100; an integer target 60 stops by tick 61. -/
theorem progress_nan_nontermination_witness :
    (runTicks JsNumber.nan 100).running = true ∧
    (runTicks JsNumber.nan 100).count = (100 : Int) ∧
    (runTicks (JsNumber.int 60) 61).running = false :=
  ⟨(progress_nan_nontermination.2.1 100).1,
   (progress_nan_nontermination.2.1 100).2,
   progress_nan_nontermination.2.2 60⟩

theorem incrementFor_pos (t : Nat) : 1 ≤ incrementFor t := by
  unfold incrementFor; split <;> omega

/-- The interval-loop display sequence decomposes as a strictly increasing
run of counter values followed by the final write of the exact target. -/
theorem intervalTicks_shape (t c : Nat) :
    ∃ pre, intervalTicks t c = pre ++ [t] ∧
      List.Chain' (fun a b => a < b) pre ∧
      (∀ x ∈ pre.head?, x = c + incrementFor t) := by
  induction c using intervalTicks.induct t with
  | case1 c h =>
    rw [intervalTicks, dif_pos h]
    exact ⟨[], rfl, List.chain'_nil, by simp⟩
  | case2 c h ih =>
    obtain ⟨pre, heq, hchain, hhead⟩ := ih
    rw [intervalTicks, dif_neg h, heq]
    refine ⟨(c + incrementFor t) :: pre, rfl, ?_, by simp⟩
    cases pre with
    | nil => simp
    | cons x xs =>
      rw [List.chain'_cons]
      refine ⟨?_, hchain⟩
      have hx := hhead x (by simp)
      have := incrementFor_pos t
      omega

theorem rafTicks_eq_aux (t : Nat) :
    ∀ k c, c ≤ t → t - c ≤ k → rafTicks t c = List.range' c (t - c + 1) := by
  intro k
  induction k with
  | zero =>
    intro c hc hk
    have hct : c = t := by omega
    subst hct
    rw [rafTicks, dif_neg (by omega)]
    simp [List.range']
  | succ k ih =>
    intro c hc hk
    by_cases hlt : c < t
    · rw [rafTicks, dif_pos hlt, ih (c + 1) (by omega) (by omega)]
      have h1 : t - c + 1 = (t - (c + 1) + 1) + 1 := by omega
      simp [h1, List.range'_succ]
    · have hct : c = t := by omega
      subst hct
      rw [rafTicks, dif_neg hlt]
      simp [List.range']

/-- The frame-callback loop `animateCount` displays exactly 0, 1, ..., target. -/
theorem rafTicks_eq_range (t : Nat) : rafTicks t 0 = List.range (t + 1) := by
  rw [rafTicks_eq_aux t t 0 (by omega) (by omega), List.range_eq_range']
  norm_num

theorem incrementFor_le (t : Nat) (h : 1 ≤ t) : incrementFor t ≤ t := by
  unfold incrementFor; split <;> omega

/-- The first value the interval loop displays never exceeds the target. -/
theorem intervalTicks_head_le (t : Nat) :
    ∀ x ∈ (intervalTicks t 0).head?, x ≤ t := by
  intro x hx
  rw [intervalTicks] at hx
  split at hx
  · simp at hx; omega
  · rename_i h
    simp at hx
    have := incrementFor_le t (by omega)
    omega

theorem barCheck_visible (threshold top : Int) (b : BarState)
    (h : b.visible = true) : barCheck threshold top b = b := by
  simp [barCheck, h]

theorem intervalTicks51_step (c : Nat) (hc : c < 51) :
    intervalTicks 51 c = (c + 2) :: intervalTicks 51 (c + 2) := by
  rw [intervalTicks, dif_neg (by omega)]
  norm_num [incrementFor]

theorem intervalTicks51_end : intervalTicks 51 52 = [51] := by
  rw [intervalTicks, dif_pos (by omega)]

/-- For target 51 (odd and above 50) the interval loop counts by 2, overshoots
to 52 and only then writes the exact target 51: the displayed sequence ends
..., 50, 52, 51. -/
theorem intervalTicks51_eval : intervalTicks 51 0 =
    [2, 4, 6, 8, 10, 12, 14, 16, 18, 20, 22, 24, 26, 28, 30, 32, 34,
     36, 38, 40, 42, 44, 46, 48, 50, 52, 51] := by
  simp [intervalTicks51_step, intervalTicks51_end]

/-- Claim C2 counterexample: for the integer target 51 the counter sequence
displayed by the interval-based loop of `animateProgressBar` is not strictly
increasing — it displays 52 and then drops to the final 51. -/
theorem progress_not_strictly_increasing_counterexample :
    ¬ List.Chain' (fun a b => a < b) (intervalTicks 51 0) := by
  rw [intervalTicks51_eval]
  simp [List.chain'_cons]

/-- Claim C2 (amended): the frame-callback loop `animateCount` displays
exactly 0, 1, ..., T (strictly increasing, starting at 0 ≤ T, ending at T,
with no write after T); the interval loop of `animateProgressBar` displays a
strictly increasing run followed by one final write of exactly T (for odd
targets above 50 the run overshoots to T + 1 before that final write; when
the counter lands exactly on T the final write repeats T), its first write
never exceeds T, and a cleared interval produces no further write; bars
already marked visible are never re-animated, so re-triggering visibility
after completion does not restart the sequence. -/
theorem progress_sequence_amended :
    (∀ t : Nat, rafTicks t 0 = List.range (t + 1)) ∧
    (∀ t : Nat, ∃ pre, intervalTicks t 0 = pre ++ [t] ∧
      List.Chain' (fun a b => a < b) pre) ∧
    (∀ t : Nat, ∀ x ∈ (intervalTicks t 0).head?, x ≤ t) ∧
    (∀ (target : JsNumber) (s : CounterState), s.running = false →
      counterTick target s = (s, none)) ∧
    (∀ (threshold top : Int) (b : BarState), b.visible = true →
      barCheck threshold top b = b) :=
  ⟨rafTicks_eq_range,
   fun t => by
     obtain ⟨pre, heq, hchain, _⟩ := intervalTicks_shape t 0
     exact ⟨pre, heq, hchain⟩,
   intervalTicks_head_le,
   counterTick_stopped,
   barCheck_visible⟩

/-- Witness for claim C2's amended theorem at concrete inputs: target 3 for
the frame loop, target 51 for the interval loop, a stopped interval state,
and an already-visible bar. -/
theorem progress_sequence_amended_witness :
    rafTicks 3 0 = List.range 4 ∧
    (∃ pre, intervalTicks 51 0 = pre ++ [51] ∧
      List.Chain' (fun a b => a < b) pre) ∧
    counterTick JsNumber.nan { count := 5, running := false } =
      ({ count := 5, running := false }, none) ∧
    barCheck 0 0 { visible := true, started := 1 } =
      { visible := true, started := 1 } :=
  ⟨progress_sequence_amended.1 3,
   progress_sequence_amended.2.1 51,
   progress_sequence_amended.2.2.2.1 JsNumber.nan _ rfl,
   progress_sequence_amended.2.2.2.2 0 0 _ rfl⟩

/-! ## Form validation
`CONFIG.validation.patterns` (src/script.js lines 37-51) and the class-based
submit handler `FormValidationController.handleSubmit` (lines 260-273), which
folds the field rules with `Array.prototype.every`, plus the plain submit
handler on `#contactForm` (lines 627-660), which validates each field into its
own variable. -/

/-- `regex.test` for `/.+/` (the name and message rules): `.` matches any
character except a line terminator, so the test succeeds exactly when the
value has at least one non-line-terminator character. -/
def isLineTerminator (c : Char) : Bool :=
  c = '\n' || c = '\r' || c = ' ' || c = ' '

def dotPlusMatches (s : String) : Bool :=
  s.data.any (fun c => !(isLineTerminator c))

/-- A character allowed by the regex class `[^@\s]`. -/
def okEmailChar (c : Char) : Bool := !(c = '@') && !(jsWhitespace c)

/-- `regex.test` for the email pattern `^[^@\s]+@[^@\s]+\.[^@\s]+$`: the
string splits at its first `@` into a nonempty local part and a domain part,
both free of `@` and whitespace, and the domain part has a dot that is
neither its first nor its last character. -/
def emailMatches (s : String) : Bool :=
  match s.data.findIdx? (fun c => c = '@') with
  | none => false
  | some i =>
    let localPart := s.data.take i
    let domainPart := s.data.drop (i + 1)
    decide (1 ≤ i) && localPart.all okEmailChar && domainPart.all okEmailChar &&
      ((domainPart.drop 1).dropLast).contains '.'

/-- The configured fields, in the insertion order of
`CONFIG.validation.patterns` (which `Object.entries` preserves). -/
inductive FormField where
  | name | phone | email | message
deriving DecidableEq

def fieldList : List FormField := [FormField.name, FormField.phone, FormField.email, FormField.message]

/-- `validateInput`'s regex test for each configured field's pattern. -/
def validateField : FormField → String → Bool
  | FormField.name, s => dotPlusMatches s
  | FormField.phone, s => phoneMatches s
  | FormField.email, s => emailMatches s
  | FormField.message, s => dotPlusMatches s

/-- `FormValidationController.handleSubmit`: `Object.entries(patterns).every`
calls `validateInput` (which also renders the field's error message) field by
field and stops at the first failure. Returns the decision together with the
list of fields whose `validateInput` actually ran (whose error display was
updated). -/
def handleSubmitClass (values : FormField → String) : List FormField → Bool × List FormField
  | [] => (true, [])
  | f :: fs =>
    if validateField f (values f) then
      ((handleSubmitClass values fs).1, f :: (handleSubmitClass values fs).2)
    else (false, [f])

/-- The plain `#contactForm` submit handler (lines 635-646): it calls
`validateInput` for name, phone, email and message unconditionally, each
result bound to its own variable. -/
def handleSubmitPlain (values : FormField → String) : List (FormField × Bool) :=
  fieldList.map (fun f => (f, validateField f (values f)))

theorem handleSubmitClass_fst (values : FormField → String) (l : List FormField) :
    (handleSubmitClass values l).1 = l.all (fun f => validateField f (values f)) := by
  induction l with
  | nil => rfl
  | cons f fs ih =>
    by_cases h : validateField f (values f) = true
    · simp [handleSubmitClass, h, ih]
    · simp [handleSubmitClass, h]

theorem handleSubmitClass_snd (values : FormField → String) (l : List FormField) :
    (handleSubmitClass values l).2 =
      l.takeWhile (fun f => validateField f (values f)) ++
        (l.dropWhile (fun f => validateField f (values f))).take 1 := by
  induction l with
  | nil => rfl
  | cons f fs ih =>
    by_cases h : validateField f (values f) = true
    · simp [handleSubmitClass, h, List.takeWhile_cons, List.dropWhile_cons, ih]
    · simp [handleSubmitClass, h, List.takeWhile_cons, List.dropWhile_cons]

/-- Claim C3 counterexample: with every field empty, the class-based submit
handler's `every` stops after the name field fails, so `validateInput` (and
its error-message display) runs for the name field only — not for phone,
email and message as the claim requires. -/
theorem submit_short_circuit_counterexample :
    (handleSubmitClass (fun _ => "") fieldList).2 = [FormField.name] ∧
    [FormField.name] ≠ fieldList := by
  constructor
  · rfl
  · intro h
    cases h

/-- Claim C3 (amended): the submit-allowed decision of the class-based
handler equals the logical AND of every configured field rule; but its
`every` fold short-circuits, running validation (and error display) only for
the fields up to and including the first failing one. The plain handler on
`#contactForm` validates all four configured fields unconditionally. -/
theorem submit_decision_amended :
    (∀ values : FormField → String,
      (handleSubmitClass values fieldList).1 =
        fieldList.all (fun f => validateField f (values f))) ∧
    (∀ values : FormField → String,
      (handleSubmitClass values fieldList).2 =
        fieldList.takeWhile (fun f => validateField f (values f)) ++
          (fieldList.dropWhile (fun f => validateField f (values f))).take 1) ∧
    (∀ values : FormField → String,
      (handleSubmitPlain values).map Prod.fst = fieldList) :=
  ⟨fun values => handleSubmitClass_fst values fieldList,
   fun values => handleSubmitClass_snd values fieldList,
   fun _ => rfl⟩

/-- Witness for claim C3's amended theorem at the all-empty valuation: the
decision is false (the AND of the four rules on empty strings), only the name
field was validated by the class handler, and the plain handler still covers
all four fields. -/
theorem submit_decision_amended_witness :
    (handleSubmitClass (fun _ => "") fieldList).1 = false ∧
    (handleSubmitPlain (fun _ => "")).map Prod.fst = fieldList :=
  ⟨by rw [submit_decision_amended.1 (fun _ => "")]; rfl,
   submit_decision_amended.2.2 (fun _ => "")⟩

/-! ## Mobile menu initialization
Two implementations: the class `MobileMenuController` (src/script.js lines
101-129), whose constructor returns early when any queried element is null,
and the function `initMobileMenu` (lines 379-402), which calls
`addEventListener` on the queried elements without any null check. -/

/-- The four DOM queries of the mobile menu: `.bar-icon`, `.menu`,
`.overlay`, `.X-icon`. `none` models `querySelector` returning null. -/
structure MenuDom where
  bar : Option Nat
  menu : Option Nat
  overlay : Option Nat
  closeBar : Option Nat
deriving DecidableEq

/-- A thrown JavaScript exception; calling a method on `null` throws a
`TypeError`. -/
inductive JsError where
  | typeError
deriving DecidableEq

/-- The `MobileMenuController` constructor: if some queried element is null
(`Object.values(this.elements).some((el) => !el)`) it returns without wiring
any listener; otherwise it wires them. The Bool records whether listeners
were wired; the constructor itself never throws. -/
def mobileMenuControllerInit (d : MenuDom) : Except JsError Bool :=
  if d.bar.isNone || d.menu.isNone || d.overlay.isNone || d.closeBar.isNone then
    Except.ok false
  else
    Except.ok true

/-- The function `initMobileMenu`: no null checks. It evaluates
`bar.addEventListener`, then `overlay.addEventListener`, then
`closeBar.addEventListener`; each throws a TypeError when its element is
null. (A null `menu` alone does not throw here: `menu` is only dereferenced
later, inside the click handlers.) -/
def initMobileMenu (d : MenuDom) : Except JsError Bool :=
  match d.bar with
  | none => Except.error JsError.typeError
  | some _ =>
    match d.overlay with
    | none => Except.error JsError.typeError
    | some _ =>
      match d.closeBar with
      | none => Except.error JsError.typeError
      | some _ => Except.ok true

/-- Claim C4 counterexample: on a page without the mobile-menu markup (all
four queries null) the function-based `initMobileMenu` throws a TypeError
instead of exiting silently. -/
theorem initMobileMenu_throws_counterexample :
    initMobileMenu { bar := none, menu := none, overlay := none, closeBar := none } =
      Except.error JsError.typeError := rfl

/-- Claim C4 (amended): the class-based `MobileMenuController` performs no
wiring and exits silently (never an exception) whenever the toggle control,
menu panel, overlay or close control is missing; the function-based
`initMobileMenu`, however, throws a TypeError during initialization whenever
the toggle control, the overlay or the close control is missing. -/
theorem menu_missing_element_amended :
    (∀ d : MenuDom,
      (d.bar = none ∨ d.menu = none ∨ d.overlay = none ∨ d.closeBar = none) →
      mobileMenuControllerInit d = Except.ok false) ∧
    (∀ d : MenuDom, (mobileMenuControllerInit d).isOk = true) ∧
    (∀ d : MenuDom,
      (d.bar = none ∨ (d.bar ≠ none ∧ d.overlay = none) ∨
        (d.bar ≠ none ∧ d.overlay ≠ none ∧ d.closeBar = none)) →
      initMobileMenu d = Except.error JsError.typeError) := by
  refine ⟨?_, ?_, ?_⟩
  · intro d h
    unfold mobileMenuControllerInit
    rcases h with h | h | h | h <;> simp [h, Option.isNone]
  · intro d
    unfold mobileMenuControllerInit
    split <;> rfl
  · intro d h
    unfold initMobileMenu
    rcases h with h | ⟨h1, h2⟩ | ⟨h1, h2, h3⟩
    · rw [h]
    · rcases hb : d.bar with _ | b
      · exact absurd hb h1
      · rw [h2]
    · rcases hb : d.bar with _ | b
      · exact absurd hb h1
      · rcases ho : d.overlay with _ | o
        · exact absurd ho h2
        · rw [h3]

/-- Witness for claim C4's amended theorem at a concrete page: with only the
menu markup's toggle bar missing, the class constructor exits with no wiring
and no exception while `initMobileMenu` throws. -/
theorem menu_missing_element_amended_witness :
    mobileMenuControllerInit { bar := none, menu := some 1, overlay := some 2, closeBar := some 3 } =
      Except.ok false ∧
    (mobileMenuControllerInit { bar := none, menu := some 1, overlay := some 2, closeBar := some 3 }).isOk = true ∧
    initMobileMenu { bar := none, menu := some 1, overlay := some 2, closeBar := some 3 } =
      Except.error JsError.typeError :=
  ⟨menu_missing_element_amended.1 _ (Or.inl rfl),
   menu_missing_element_amended.2.1 _,
   menu_missing_element_amended.2.2 _ (Or.inl rfl)⟩

/-! ## Logo marquee
`initLogoSlider` (src/script.js lines 409-448): the container's content is
duplicated once (`originalContent + originalContent`), `halfWidth` is half
the resulting scroll width, and each frame decrements `scrollAmount` by 1,
applies it as a translation, and resets it to 0 once `|scrollAmount| >=
halfWidth`. (`LogoSliderController`, lines 134-170, runs the same step with
`this.container.scrollWidth / 2` read each frame.) -/

/-- Duplicating the container content once: `logosContainer.innerHTML =
originalContent + originalContent` (children listed by their widths). -/
def duplicateContent (content : List Nat) : List Nat := content ++ content

/-- The container's scrollable width: the sum of its children's widths. -/
def scrollWidth (children : List Nat) : Nat := children.sum

/-- One animation frame of `scrollLogos`: decrement the offset, apply it
(first component), then wrap to 0 when its absolute value has reached
`halfWidth` (second component is the offset kept for the next frame). -/
def marqueeStep (halfWidth : Nat) (offset : Int) : Int × Int :=
  let applied := offset - 1
  (applied, if halfWidth ≤ applied.natAbs then 0 else applied)

/-- Claim C5: duplication makes the track width exactly 2W, and from any
reachable offset (in `(-W, 0]`) the applied offset never exceeds W in
absolute value, the wrap to 0 happens exactly when `|offset| >= W`, and the
post-frame offset is again in `(-W, 0]`. -/
theorem marquee_duplication_wrap :
    (∀ content : List Nat,
      scrollWidth (duplicateContent content) = 2 * scrollWidth content) ∧
    (∀ (w : Nat) (offset : Int), 1 ≤ w → -(w : Int) < offset → offset ≤ 0 →
      (marqueeStep w offset).1 = offset - 1 ∧
      ((marqueeStep w offset).1).natAbs ≤ w ∧
      ((marqueeStep w offset).2 = 0 ↔ w ≤ ((marqueeStep w offset).1).natAbs) ∧
      -(w : Int) < (marqueeStep w offset).2 ∧ (marqueeStep w offset).2 ≤ 0) := by
  constructor
  · intro content
    simp [duplicateContent, scrollWidth, two_mul]
  · intro w offset hw hlo hhi
    have happ : (marqueeStep w offset).1 = offset - 1 := rfl
    have hsnd : (marqueeStep w offset).2 =
        if w ≤ (offset - 1).natAbs then 0 else offset - 1 := rfl
    have habs : (offset - 1).natAbs ≤ w := by omega
    refine ⟨happ, by rw [happ]; exact habs, ?_, ?_, ?_⟩
    · rw [happ, hsnd]
      by_cases hc : w ≤ (offset - 1).natAbs
      · simp [hc]
      · simp only [if_neg hc]
        constructor
        · intro h0; omega
        · intro hge; exact absurd hge hc
    · rw [hsnd]
      by_cases hc : w ≤ (offset - 1).natAbs
      · simp only [if_pos hc]; omega
      · simp only [if_neg hc]; omega
    · rw [hsnd]
      by_cases hc : w ≤ (offset - 1).natAbs
      · simp only [if_pos hc]; omega
      · simp only [if_neg hc]; omega

/-- Witness for claim C5's theorem: a track of two logos of width 3 (W = 6)
and the reachable offset -5, at which the applied offset -6 triggers the
wrap back to 0. -/
theorem marquee_duplication_wrap_witness :
    scrollWidth (duplicateContent [3, 3]) = 2 * scrollWidth [3, 3] ∧
    (marqueeStep 6 (-5)).1 = -6 ∧
    ((marqueeStep 6 (-5)).1).natAbs ≤ 6 ∧
    (marqueeStep 6 (-5)).2 = 0 :=
  ⟨marquee_duplication_wrap.1 [3, 3],
   (marquee_duplication_wrap.2 6 (-5) (by norm_num) (by norm_num) (by norm_num)).1,
   (marquee_duplication_wrap.2 6 (-5) (by norm_num) (by norm_num) (by norm_num)).2.1,
   (marquee_duplication_wrap.2 6 (-5) (by norm_num) (by norm_num) (by norm_num)).2.2.1.mpr
     (by norm_num [marqueeStep])⟩

/-! ## FAQ accordion
`initFAQ` (src/script.js lines 455-483): a click on a question first closes
every other open answer, then toggles the clicked one. The per-answer open
flag stands for the `open` class and the `maxHeight` style, which the handler
always sets together. -/

/-- Close every answer: the loop over `.faq-answer.open` entries other than
the clicked one. -/
def closeAll (l : List Bool) : List Bool := l.map (fun _ => false)

/-- The delegated click handler of `initFAQ`, acting on the list of answers'
open flags with the clicked question's index: every other answer is closed
and the clicked answer is toggled. -/
def faqClick : List Bool → Nat → List Bool
  | [], _ => []
  | isOpen :: rest, 0 => (!isOpen) :: closeAll rest
  | isOpen :: rest, n + 1 =>
    -- the clicked answer is further down; this one is closed
    (isOpen && false) :: faqClick rest n

/-- How many answers are open. -/
def countOpen (l : List Bool) : Nat := l.count true

theorem countOpen_closeAll (l : List Bool) : countOpen (closeAll l) = 0 := by
  induction l with
  | nil => rfl
  | cons b rest ih => simpa [closeAll, countOpen, List.count_cons] using ih

theorem countOpen_faqClick_le (s : List Bool) (c : Nat) :
    countOpen (faqClick s c) ≤ 1 := by
  induction s generalizing c with
  | nil => simp [faqClick, countOpen]
  | cons b rest ih =>
    cases c with
    | zero =>
      have h := countOpen_closeAll rest
      cases b <;> simp [faqClick, countOpen, List.count_cons] at * <;> omega
    | succ n =>
      have h := ih n
      simp [faqClick, countOpen, List.count_cons] at *
      omega

theorem countOpen_foldl_le (clicks : List Nat) (s : List Bool)
    (hs : countOpen s ≤ 1) : countOpen (clicks.foldl faqClick s) ≤ 1 := by
  induction clicks generalizing s with
  | nil => exact hs
  | cons c cs ih => exact ih (faqClick s c) (countOpen_faqClick_le s c)

theorem countOpen_replicate (n : Nat) : countOpen (List.replicate n false) = 0 := by
  simp [countOpen, List.count_replicate]

theorem faqClick_open_collapses (s : List Bool) (c : Nat)
    (h : s.get? c = some true) : countOpen (faqClick s c) = 0 := by
  induction s generalizing c with
  | nil => cases h
  | cons b rest ih =>
    cases c with
    | zero =>
      have hb : b = true := by simpa using h
      subst hb
      have := countOpen_closeAll rest
      simp [faqClick, countOpen, List.count_cons] at *
      omega
    | succ n =>
      have hh : rest.get? n = some true := by simpa using h
      have := ih n hh
      simp [faqClick, countOpen, List.count_cons] at *
      omega

/-- Claim C7: starting from all answers closed, after any sequence of clicks
at most one answer is open; and clicking the question of an already-open
answer leaves every answer closed. -/
theorem faq_single_open :
    (∀ (n : Nat) (clicks : List Nat),
      countOpen (clicks.foldl faqClick (List.replicate n false)) ≤ 1) ∧
    (∀ (s : List Bool) (c : Nat), s.get? c = some true →
      countOpen (faqClick s c) = 0) :=
  ⟨fun n clicks => countOpen_foldl_le clicks _ (by rw [countOpen_replicate]; omega),
   faqClick_open_collapses⟩

/-- Witness for claim C7's theorem: five answers, clicks on questions 1, 3
and 3 again; and collapsing the open answer of a concrete state. -/
theorem faq_single_open_witness :
    countOpen ([1, 3, 3].foldl faqClick (List.replicate 5 false)) ≤ 1 ∧
    countOpen (faqClick [false, true, false] 1) = 0 :=
  ⟨faq_single_open.1 5 [1, 3, 3],
   faq_single_open.2 [false, true, false] 1 rfl⟩

/-! ## Scroll reveal
`ScrollAnimationController.handleIntersection` (src/script.js lines 191-198)
and the identical observer callback of `initScrollAnimations` (lines
503-510): an intersecting entry gets the `fade-in-visible` class and the
element is unobserved. The observer only delivers entries for elements still
observed, and nothing ever removes the class. -/

/-- Per-element reveal state: whether it carries `fade-in-visible` and
whether the observer still watches it. -/
structure RevealState where
  visible : Bool
  observed : Bool
deriving DecidableEq

/-- One observer callback delivery for the element with the entry's
`isIntersecting` flag: while observed and intersecting, tag visible and
unobserve; otherwise nothing happens (an unobserved element gets no
callback). -/
def revealHandle (s : RevealState) (isIntersecting : Bool) : RevealState :=
  if s.observed && isIntersecting then { visible := true, observed := false }
  else s

/-- A whole sequence of visibility changes delivered to one element. -/
def revealRun (s : RevealState) (events : List Bool) : RevealState :=
  events.foldl revealHandle s

/-- How many hidden-to-visible transitions the element undergoes along a
sequence of visibility changes. -/
def transitionCount (s : RevealState) : List Bool → Nat
  | [] => 0
  | e :: es =>
    (if s.visible = false ∧ (revealHandle s e).visible = true then 1 else 0) +
      transitionCount (revealHandle s e) es

theorem revealHandle_visible_mono (s : RevealState) (e : Bool)
    (h : s.visible = true) : (revealHandle s e).visible = true := by
  unfold revealHandle
  split
  · rfl
  · exact h

theorem transitionCount_of_visible (s : RevealState) (events : List Bool)
    (h : s.visible = true) : transitionCount s events = 0 := by
  induction events generalizing s with
  | nil => rfl
  | cons e es ih =>
    unfold transitionCount
    rw [if_neg (by simp [h]), ih _ (revealHandle_visible_mono s e h)]

theorem transitionCount_le_one (s : RevealState) (events : List Bool) :
    transitionCount s events ≤ 1 := by
  induction events generalizing s with
  | nil => simp [transitionCount]
  | cons e es ih =>
    unfold transitionCount
    by_cases h : s.visible = false ∧ (revealHandle s e).visible = true
    · rw [if_pos h, transitionCount_of_visible _ _ h.2]
    · rw [if_neg h]
      simpa using ih (revealHandle s e)

/-- From the initial state (hidden, observed) only two states are reachable:
still hidden and observed, or visible and unobserved. -/
theorem revealRun_reachable (events : List Bool) :
    revealRun { visible := false, observed := true } events =
        { visible := false, observed := true } ∨
    revealRun { visible := false, observed := true } events =
        { visible := true, observed := false } := by
  induction events using List.reverseRecOn with
  | nil => exact Or.inl rfl
  | append_singleton es e ih =>
    rw [revealRun, List.foldl_append, List.foldl_cons, List.foldl_nil]
    rcases ih with h | h <;> rw [revealRun] at h <;> rw [h]
    · cases e
      · exact Or.inl rfl
      · exact Or.inr rfl
    · exact Or.inr rfl

/-- Claim C8: visibility tagging is monotone (never reverted), each element
transitions hidden-to-visible at most once over any sequence of visibility
changes, and once an element (started hidden and observed) has become
visible it is unobserved, so any further visibility change leaves its state
untouched. -/
theorem reveal_fire_once :
    (∀ (s : RevealState) (e : Bool), s.visible = true →
      (revealHandle s e).visible = true) ∧
    (∀ (s : RevealState) (events : List Bool), transitionCount s events ≤ 1) ∧
    (∀ (events : List Bool) (e : Bool),
      (revealRun { visible := false, observed := true } events).visible = true →
      revealHandle (revealRun { visible := false, observed := true } events) e =
        revealRun { visible := false, observed := true } events) := by
  refine ⟨revealHandle_visible_mono, transitionCount_le_one, ?_⟩
  intro events e h
  rcases revealRun_reachable events with hr | hr <;> rw [hr]
  · rw [hr] at h
    cases h
  · rfl

/-- Witness for claim C8's theorem: an element revealed by the first of
three visibility events stays visible, undergoes one transition, and the
final scroll-away event leaves its state untouched. -/
theorem reveal_fire_once_witness :
    (revealHandle { visible := true, observed := false } false).visible = true ∧
    transitionCount { visible := false, observed := true } [true, false, true] ≤ 1 ∧
    revealHandle (revealRun { visible := false, observed := true } [true, false]) false =
      revealRun { visible := false, observed := true } [true, false] :=
  ⟨reveal_fire_once.1 _ false rfl,
   reveal_fire_once.2.1 _ [true, false, true],
   reveal_fire_once.2.2 [true, false] false rfl⟩

/-! ## Debounced input validation
`Utils.animation.debounce` (src/script.js lines 74-84) wrapped around
`validateInput` by `initInputValidation` (lines 246-258) with a 300ms wait:
each input event clears the pending timer and schedules a new one at event
time + wait; a timer that is still pending when it expires runs the
validation, which reads the field's value at that moment — the value set by
the event that scheduled it. -/

/-- Debounce state for one field: the pending timer (fire time and the field
value it will see) and the log of validation runs already executed (fire
time and validated value). -/
structure DebounceState where
  pending : Option (Nat × String)
  runs : List (Nat × String)
deriving DecidableEq

/-- One input event `(time, value)` hits the debounced function: a pending
timer that expired before this event has already fired (its run is logged);
an unexpired one is cleared by `clearTimeout`; either way `setTimeout`
schedules the new run at `time + wait` capturing the current value. -/
def debounceCall (wait : Nat) (s : DebounceState) (ev : Nat × String) : DebounceState :=
  let fired : DebounceState :=
    match s.pending with
    | some p =>
      if p.1 ≤ ev.1 then { pending := none, runs := s.runs ++ [p] }
      else { pending := none, runs := s.runs }
    | none => s
  { pending := some (ev.1 + wait, ev.2), runs := fired.runs }

/-- After the last event, the still-pending timer eventually expires and its
run executes. -/
def debounceFlush (s : DebounceState) : List (Nat × String) :=
  match s.pending with
  | some p => s.runs ++ [p]
  | none => s.runs

/-- All validation runs produced by a finite sequence of input events on one
field, starting with no pending timer. -/
def debounceRun (wait : Nat) (events : List (Nat × String)) : List (Nat × String) :=
  debounceFlush (events.foldl (debounceCall wait) { pending := none, runs := [] })

theorem debounce_fold_burst (wait : Nat) :
    ∀ (es : List (Nat × String)) (t : Nat) (v : String),
      List.Chain' (fun a b => b.1 < a.1 + wait) ((t, v) :: es) →
      es.foldl (debounceCall wait) { pending := some (t + wait, v), runs := [] } =
        { pending := some ((((t, v) :: es).getLast (by simp)).1 + wait,
                           (((t, v) :: es).getLast (by simp)).2),
          runs := [] } := by
  intro es
  induction es with
  | nil => intro t v _; rfl
  | cons e es' ih =>
    intro t v hchain
    have hlt : e.1 < t + wait := (List.chain'_cons.mp hchain).1
    have hchain' : List.Chain' (fun a b => b.1 < a.1 + wait) (e :: es') :=
      (List.chain'_cons.mp hchain).2
    rw [List.foldl_cons]
    have hcall : debounceCall wait { pending := some (t + wait, v), runs := [] } e =
        { pending := some (e.1 + wait, e.2), runs := [] } := by
      simp [debounceCall, Nat.not_le.mpr hlt]
    rw [hcall]
    cases e with
    | mk t' v' =>
      rw [ih t' v' hchain']
      have : ((t, v) :: (t', v') :: es').getLast (by simp) =
          ((t', v') :: es').getLast (by simp) := by
        rw [List.getLast_cons]
      simp [this]

/-- Claim C9: a nonempty burst of input events in which each event arrives
within the quiet period of its predecessor produces exactly one validation
run, scheduled one quiet period after the last event and using the value
present at the last event; and every call reschedules the single pending
timer (clear and restart) rather than stacking a second one. -/
theorem debounce_single_run :
    (∀ (wait : Nat) (ev : Nat × String) (es : List (Nat × String)),
      List.Chain' (fun a b => b.1 < a.1 + wait) (ev :: es) →
      debounceRun wait (ev :: es) =
        [(((ev :: es).getLast (by simp)).1 + wait,
          ((ev :: es).getLast (by simp)).2)]) ∧
    (∀ (wait : Nat) (s : DebounceState) (ev : Nat × String),
      (debounceCall wait s ev).pending = some (ev.1 + wait, ev.2)) := by
  constructor
  · intro wait ev es hchain
    cases ev with
    | mk t v =>
      unfold debounceRun
      rw [List.foldl_cons]
      have hfirst : debounceCall wait { pending := none, runs := [] } (t, v) =
          { pending := some (t + wait, v), runs := [] } := rfl
      rw [hfirst, debounce_fold_burst wait es t v hchain]
      rfl
  · intro wait s ev
    rfl

/-- Witness for claim C9's theorem: three input events at 0ms, 100ms and
200ms, each within the 300ms quiet period of its predecessor, yield exactly
one validation run at 500ms on the value of the last event. -/
theorem debounce_single_run_witness :
    debounceRun 300 [(0, "a"), (100, "ab"), (200, "abc")] = [(500, "abc")] ∧
    (debounceCall 300 { pending := none, runs := [] } (0, "a")).pending =
      some (300, "a") :=
  ⟨debounce_single_run.1 300 (0, "a") [(100, "ab"), (200, "abc")] (by
      simp [List.chain'_cons]),
   debounce_single_run.2 300 { pending := none, runs := [] } (0, "a")⟩

/-! ## Member photo handoff
`memberHandler` (src/script.js lines 664-685): on the listing page a click on
the entry at index `idx` stores `Images/Member/members_photo_(idx+1).jpg`
under the `selectedImage` key, overwriting any previous value; on the detail
page the stored path, when present (and nonempty — the empty string is falsy
in JavaScript), replaces the profile image source, otherwise the source is
left untouched. -/

/-- The template string of `initIndex`, built from the 1-based index. -/
def memberImagePath (idx : Nat) : String :=
  "Images/Member/members_photo_" ++ toString (idx + 1) ++ ".jpg"

/-- `localStorage.setItem("selectedImage", ...)` on click of entry `idx`:
whatever was stored before is overwritten. -/
def memberClickStore (_storage : Option String) (idx : Nat) : Option String :=
  some (memberImagePath idx)

/-- `initMemberPage`: `localStorage.getItem` yields `none` when nothing was
stored; the source is replaced only by a truthy stored value. -/
def memberPageLoad (storage : Option String) (currentSrc : String) : String :=
  match storage with
  | some path => if path.isEmpty then currentSrc else path
  | none => currentSrc

/-- Claim C10: clicking any entry stores the derived 1-based path (the entry
at index 2 stores a path ending in `members_photo_3.jpg`), and a detail-page
load with nothing stored leaves the image source untouched. -/
theorem member_photo_handoff :
    (∀ (storage : Option String) (idx : Nat),
      memberClickStore storage idx = some (memberImagePath idx)) ∧
    memberImagePath 2 = "Images/Member/" ++ "members_photo_3.jpg" ∧
    (∀ currentSrc : String, memberPageLoad none currentSrc = currentSrc) :=
  ⟨fun _ _ => rfl, by decide, fun _ => rfl⟩

/-- Witness for claim C10's theorem at concrete inputs: storing from entry
index 2 over a previous value, and loading a detail page with empty
storage. -/
theorem member_photo_handoff_witness :
    memberClickStore (some "old") 2 = some (memberImagePath 2) ∧
    memberPageLoad none "default.jpg" = "default.jpg" :=
  ⟨member_photo_handoff.1 (some "old") 2,
   member_photo_handoff.2.2 "default.jpg"⟩
